/-
  Verification of the quantfolio portfolio backend
  (backend/app: services/portfolios.py, services/calculations/metrics.py,
   db/crud_transactions.py, db/crud_prices.py, services/market_data.py).

  The Python code is shallowly embedded: monetary and statistical floats
  and Decimals are modelled as rationals (ℚ), calendar dates as integers
  (days), fallible code as Except, and database stores as explicit lists
  passed in as arguments.  Real-valued operations that have no exact
  rational counterpart (numpy sqrt and float ** with fractional exponent)
  are threaded through as function parameters; the theorems that depend
  on them assume only the sign-preservation property that the real
  functions satisfy on the inputs the code feeds them.
-/
import Mathlib

namespace Quantfolio

/-! ## Decimal rounding helpers

`decimal.Decimal.quantize` with `ROUND_HALF_UP` rounds ties away from
zero; with the default context (used by `_to_decimal` in
`crud_transactions.py`) it rounds ties to even. -/

/-- Round a rational to an integer, ties away from zero
(Python decimal `ROUND_HALF_UP`). -/
def roundHalfAwayZ (q : ℚ) : ℤ :=
  if 0 ≤ q then ⌊q + 1/2⌋ else -⌊-q + 1/2⌋

/-- Round a rational to an integer, ties to even
(Python decimal default `ROUND_HALF_EVEN`). -/
def roundHalfEvenZ (q : ℚ) : ℤ :=
  let f : ℤ := ⌊q⌋
  let r : ℚ := q - f
  if r < 1/2 then f
  else if 1/2 < r then f + 1
  else if Even f then f else f + 1

/-- Embeds `value.quantize(Decimal("0.0..01"), rounding=ROUND_HALF_UP)` with `n`
fractional digits. -/
def quantizeHalfUp (n : ℕ) (q : ℚ) : ℚ :=
  (roundHalfAwayZ (q * 10 ^ n) : ℚ) / 10 ^ n

/-- Embeds `value.quantize(Decimal("0.0..01"))` under the default decimal context
(`ROUND_HALF_EVEN`) with `n` fractional digits. -/
def quantizeHalfEven (n : ℕ) (q : ℚ) : ℚ :=
  (roundHalfEvenZ (q * 10 ^ n) : ℚ) / 10 ^ n

/-! ## String normalization

Python `str.upper()` and `str.strip()` modelled directly on the
character list.  (Lean's own `String.toUpper`/`String.trim` compute the
same strings but by position-based recursion, which the kernel cannot
evaluate on concrete inputs.) -/

/-- Embeds `str.upper()`: uppercase every character. -/
def upperStr (s : String) : String :=
  ⟨s.data.map Char.toUpper⟩

/-- Embeds `str.strip()`: drop whitespace from both ends. -/
def stripStr (s : String) : String :=
  ⟨((s.data.dropWhile Char.isWhitespace).reverse.dropWhile
    Char.isWhitespace).reverse⟩

/-! ## Transactions (db/models.py, db/crud_transactions.py) -/

/-- Embeds `TransactionType` enum from `db/models.py`. -/
inductive TransactionType where
  | BUY
  | SELL
  | DIVIDEND
  | FEE
deriving DecidableEq, Repr

/-- A stored `Transaction` row, reduced to the fields the services read.
Dates are modelled as integers (day numbers). -/
structure Tx where
  ticker : String
  date : ℤ
  type : TransactionType
  quantity : Option ℚ
  price : Option ℚ
  amount : Option ℚ
deriving DecidableEq, Repr

/-- A numeric payload value for `create_transaction`, tagged with the
Python type `_to_decimal` dispatches on: a `decimal.Decimal` instance,
or a float/int/numeric string (which take the `Decimal(str(value))`
branch).  The numeric content is the same rational either way; only the
error handling differs. -/
inductive NumIn where
  | dec (q : ℚ)
  | raw (q : ℚ)
deriving DecidableEq, Repr

/-- The numeric content of a payload value. -/
def numVal : NumIn → ℚ
  | .dec q => q
  | .raw q => q

/-- How `create_transaction` can fail: an `InvalidTransactionError`
(validation, caught by the API layer), or an exception that escapes the
function uncaught — the `InvalidOperation` that
`Decimal.quantize` raises on the `isinstance(value, Decimal)` branch of
`_to_decimal`, which has no `try` around it. -/
inductive TxFailure where
  | invalid (msg : String)
  | uncaught
deriving DecidableEq, Repr

/-- Embeds the capacity check of `Decimal.quantize` under the default
context (precision 28): quantizing to 8 fractional digits raises
`InvalidOperation` exactly when the rounded coefficient
`|value·10^8|` (ties to even) would need more than 28 digits, i.e. when
it reaches `10^28` (roughly `|value| ≥ 1e20`). -/
def fitsContext (v : Option NumIn) : Bool :=
  match v with
  | none => true
  | some n => |roundHalfEvenZ (numVal n * 10 ^ 8)| < 10 ^ 28

/-- Embeds `_to_decimal` from `crud_transactions.py`: `None` passes
through; a numeric value is quantized to 8 fractional digits under the
default decimal context (ties to even).  When the quantized coefficient
exceeds the 28-digit context capacity, `quantize` raises
`InvalidOperation`: on the `Decimal` branch this escapes uncaught; on
the float/int/str branch it is caught and re-raised as
`InvalidTransactionError("Invalid decimal value: ...")`.  (Non-numeric
strings, which fail already in `Decimal(str(value))`, are outside this
numeric model.) -/
def toDecimal : Option NumIn → Except TxFailure (Option ℚ)
  | none => .ok none
  | some (.dec q) =>
    if 10 ^ 28 ≤ |roundHalfEvenZ (q * 10 ^ 8)| then .error .uncaught
    else .ok (some (quantizeHalfEven 8 q))
  | some (.raw q) =>
    if 10 ^ 28 ≤ |roundHalfEvenZ (q * 10 ^ 8)| then
      .error (.invalid "Invalid decimal value")
    else .ok (some (quantizeHalfEven 8 q))

/-- Embeds `_normalize_ticker` from `crud_transactions.py`: reject blank tickers,
otherwise strip surrounding whitespace and uppercase. -/
def normalizeTicker (t : String) : Except String String :=
  if stripStr t = "" then .error "Ticker is required"
  else .ok (upperStr (stripStr t))

/-- Embeds `_validate_payload` from `crud_transactions.py` (lines 45-63): the
future-date check runs first, then the type-conditional field checks. -/
def validatePayload (txType : TransactionType) (quantity price amount : Option ℚ)
    (txDate today : ℤ) : Except String Unit :=
  if today < txDate then .error "Transaction date cannot be in the future"
  else if txType = .BUY ∨ txType = .SELL then
    match quantity with
    | none => .error "Quantity must be > 0 for BUY/SELL"
    | some q =>
      if q ≤ 0 then .error "Quantity must be > 0 for BUY/SELL"
      else
        match price with
        | none => .error "Price must be >= 0 for BUY/SELL"
        | some p =>
          if p < 0 then .error "Price must be >= 0 for BUY/SELL"
          else .ok ()
  else
    match amount with
    | none => .error "Amount must be >= 0 for DIVIDEND/FEE"
    | some a =>
      if a < 0 then .error "Amount must be >= 0 for DIVIDEND/FEE"
      else .ok ()

/-- Embeds `create_transaction` from `crud_transactions.py` (lines 70-113).  The
store is an explicit list of rows; a new row is appended only after
normalization, decimal conversion and validation all succeed, so any
failure leaves the store untouched (the Python code raises before
`session.add`).  The conversions run in source order — quantity, then
price, then amount — after ticker normalization; `tx_type` arrives
already resolved (`_resolve_type` is the identity on enum values). -/
def createTransaction (store : List Tx) (ticker : String) (txType : TransactionType)
    (txDate : ℤ) (quantity price amount : Option NumIn) (today : ℤ) :
    Except TxFailure (List Tx × Tx) :=
  match normalizeTicker ticker with
  | .error e => .error (.invalid e)
  | .ok tk =>
    match toDecimal quantity with
    | .error f => .error f
    | .ok q =>
      match toDecimal price with
      | .error f => .error f
      | .ok p =>
        match toDecimal amount with
        | .error f => .error f
        | .ok a =>
          match validatePayload txType q p a txDate today with
          | .error e => .error (.invalid e)
          | .ok _ =>
            .ok (store ++ [⟨tk, txDate, txType, q, p, a⟩],
              ⟨tk, txDate, txType, q, p, a⟩)

/-- A missing or non-positive quantity (claim wording, C7). -/
def badQty : Option ℚ → Prop
  | none => True
  | some x => x ≤ 0

/-- A missing or negative price/amount (claim wording, C7). -/
def badPriceOrAmount : Option ℚ → Prop
  | none => True
  | some x => x < 0

/-- The rejection conditions exactly as the transaction-creation claim
states them — future date, or bad quantity/price for BUY/SELL, or bad
amount for DIVIDEND/FEE — read on given payload field values.  This
follows the claim's words (not the source) so that the validation code
can be compared against it. -/
def rejectConditions (txType : TransactionType) (q p a : Option ℚ)
    (txDate today : ℤ) : Prop :=
  today < txDate ∨
    (if txType = .BUY ∨ txType = .SELL then badQty q ∨ badPriceOrAmount p
     else badPriceOrAmount a)

/-! ## Position aggregation (crud_transactions.aggregate_positions,
services/portfolios.compute_positions) -/

/-- Signed quantity contribution of one transaction, as in the SQL `case`
of `aggregate_positions` and the delta loop of `_timeseries_positions`:
`+quantity` for BUY, `-quantity` for SELL, `0` otherwise (a missing
quantity counts as 0, mirroring `tx.quantity or 0` / SQL NULL handling).
-/
def signedQty (tx : Tx) : ℚ :=
  match tx.type with
  | .BUY => tx.quantity.getD 0
  | .SELL => -(tx.quantity.getD 0)
  | _ => 0

/-- Signed cost contribution of one transaction, as in the SQL `case` of
`aggregate_positions`: `+quantity*price` for BUY, `-quantity*price` for
SELL, `0` otherwise. -/
def signedCost (tx : Tx) : ℚ :=
  match tx.type with
  | .BUY => tx.quantity.getD 0 * tx.price.getD 0
  | .SELL => -(tx.quantity.getD 0 * tx.price.getD 0)
  | _ => 0

/-- The distinct tickers of a ledger in ascending order (SQL
`GROUP BY ticker ORDER BY ticker ASC` in `aggregate_positions`, and
`sorted({tx.ticker for tx in transactions})` in
`compute_portfolio_metrics`). -/
def sortedTickers (txs : List Tx) : List String :=
  ((txs.map Tx.ticker).dedup).insertionSort (· ≤ ·)

/-- Net signed quantity of a ticker over a ledger
(`SUM(qty_case)` grouped by ticker). -/
def netQty (txs : List Tx) (t : String) : ℚ :=
  ((txs.filter (fun tx => tx.ticker = t)).map signedQty).sum

/-- Net signed cost of a ticker over a ledger
(`SUM(cost_case)` grouped by ticker). -/
def netCost (txs : List Tx) (t : String) : ℚ :=
  ((txs.filter (fun tx => tx.ticker = t)).map signedCost).sum

/-- Embeds `aggregate_positions` from `crud_transactions.py` (lines 196-219):
one row per distinct ticker, ordered by ticker ascending, carrying the
net signed quantity and cost. -/
def aggregatePositions (txs : List Tx) : List (String × ℚ × ℚ) :=
  (sortedTickers txs).map (fun t => (t, netQty txs t, netCost txs t))

/-- Output row of `compute_positions` (schema `PositionOut`). -/
structure PositionOut where
  ticker : String
  quantity : ℚ
  avgCost : Option ℚ
  marketPrice : Option ℚ
  marketValue : ℚ
  unrealizedPnl : ℚ
deriving DecidableEq, Repr

/-- One result row of `compute_positions` (lines 64-92 of
`services/portfolios.py`) for an aggregate row `(t, qty, cost)`.
`dbClose t` is the latest stored close for `t` (`None` when the ticker is
absent from the store or its latest close is NULL); `fallback t` is the
swallowed-failure provider lookup (`get_last_close`): an `Except.error`
models a caught `HTTPException`, which leaves the ticker without a
market price. -/
def positionRow (dbClose : String → Option ℚ) (fallback : String → Except Unit ℚ)
    (r : String × ℚ × ℚ) : PositionOut :=
  let t := r.1
  let quantity := quantizeHalfUp 8 r.2.1
  let cost := r.2.2
  let avgCost : Option ℚ := if quantity ≠ 0 then some (cost / quantity) else none
  let marketPrice : Option ℚ :=
    match dbClose t with
    | some c => some c
    | none =>
      match fallback t with
      | .ok p => some p
      | .error _ => none
  let marketValue : ℚ := match marketPrice with | some mp => mp * quantity | none => 0
  let unrealized : ℚ :=
    match marketPrice, avgCost with
    | some mp, some ac => (mp - ac) * quantity
    | _, _ => 0
  { ticker := t
    quantity := quantizeHalfUp 8 quantity
    avgCost := avgCost.map (quantizeHalfUp 4)
    marketPrice := marketPrice.map (quantizeHalfUp 4)
    marketValue := quantizeHalfUp 2 marketValue
    unrealizedPnl := quantizeHalfUp 2 unrealized }

/-- Embeds `compute_positions` from `services/portfolios.py` (lines 38-95):
aggregate the ledger per ticker, drop rows whose net quantity is exactly
zero, build each output row, and sort the results by ticker. -/
def computePositions (txs : List Tx) (dbClose : String → Option ℚ)
    (fallback : String → Except Unit ℚ) : List PositionOut :=
  let aggregates := aggregatePositions txs
  let filtered := aggregates.filter (fun r => r.2.1 ≠ 0)
  let results := filtered.map (positionRow dbClose fallback)
  results.insertionSort (fun a b => a.ticker ≤ b.ticker)

/-! ## Daily date grid and cumulative positions
(`pd.date_range(effective_start, end, freq="D")` and
`_timeseries_positions` in `services/portfolios.py`) -/

/-- The inclusive daily grid from `s` to `e`
(`pd.date_range(s, e, freq="D")`); empty when `e < s`. -/
def dateGrid (s e : ℤ) : List ℤ :=
  (List.range (e - s + 1).toNat).map (fun (i : ℕ) => s + (i : ℤ))

/-- Earliest transaction date of a ledger
(`min(tx.date for tx in transactions)`; 0 for an empty ledger, which the
caller has already rejected). -/
def firstTxDate : List Tx → ℤ
  | [] => 0
  | tx :: txs => txs.foldl (fun m t => min m t.date) tx.date

/-- Embeds `effective_start = min(first_tx_date, start)` from
`compute_portfolio_metrics`. -/
def effectiveStart (txs : List Tx) (start : ℤ) : ℤ :=
  min (firstTxDate txs) start

/-- The delta records of `_timeseries_positions` (lines 130-138): only
BUY/SELL rows with a nonzero signed quantity are recorded. -/
def txRecords (txs : List Tx) : List Tx :=
  txs.filter (fun tx => (tx.type = .BUY ∨ tx.type = .SELL) ∧ signedQty tx ≠ 0)

/-- Summed quantity delta of a ticker on one day (the
`pivot_table(..., aggfunc="sum", fill_value=0.0)` cell). -/
def qtyDeltaOn (txs : List Tx) (t : String) (d : ℤ) : ℚ :=
  (((txRecords txs).filter (fun tx => tx.ticker = t ∧ tx.date = d)).map signedQty).sum

/-- Cumulative position of a ticker at grid day `d`, for a grid starting
at `s`: the pivot is reindexed onto the daily grid (dropping any
off-grid dates, zero-filling the rest) and forward-accumulated with
`cumsum`, so the value at `d` is the sum of the per-day deltas over the
grid days up to `d`. -/
def cumQty (txs : List Tx) (t : String) (s d : ℤ) : ℚ :=
  ((dateGrid s d).map (qtyDeltaOn txs t)).sum

/-! ## Return series (`_compute_returns`, lines 151-163) -/

/-- Embeds `_compute_returns`: walk consecutive index pairs of the dated value
series; skip a pair when the prior day's date precedes `start` or the
prior value is not positive, otherwise append `current/prior - 1`. -/
def computeReturns (start : ℤ) : List (ℤ × ℚ) → List ℚ
  | (d0, v0) :: (d1, v1) :: rest =>
    (if start ≤ d0 then
      (if 0 < v0 then [v1 / v0 - 1] else [])
    else []) ++ computeReturns start ((d1, v1) :: rest)
  | _ => []

/-- HTTP-shaped service failure (`fastapi.HTTPException`). -/
structure HErr where
  status : ℕ
  detail : String
deriving DecidableEq, Repr

/-- Lines 215-218 of `compute_portfolio_metrics`: derive the return
series and reject the request when it is empty. -/
def returnsStep (start : ℤ) (datedValues : List (ℤ × ℚ)) : Except HErr (List ℚ) :=
  let returns := computeReturns start datedValues
  if returns = [] then
    .error ⟨400, "Not enough observations to compute metrics"⟩
  else .ok returns

/-! ## Max drawdown (lines 246-249) -/

/-- Running maximum with seed `a` (tail of `np.maximum.accumulate`). -/
def cummaxAux (a : ℚ) : List ℚ → List ℚ
  | [] => []
  | v :: vs => max a v :: cummaxAux (max a v) vs

/-- Embeds `np.maximum.accumulate`: the running peak of the series from its
first value. -/
def cummax : List ℚ → List ℚ
  | [] => []
  | v :: vs => v :: cummaxAux v vs

/-- Embeds `np.where(cummax > 0, values/cummax - 1.0, 0.0)`: per-day drawdown,
`value/peak - 1` where the running peak is positive, else 0. -/
def drawdowns (vs : List ℚ) : List ℚ :=
  (vs.zip (cummax vs)).map (fun p => if 0 < p.2 then p.1 / p.2 - 1 else 0)

/-- Embeds `float(drawdowns.min()) if drawdowns.size else 0.0`. -/
def maxDrawdown (vs : List ℚ) : ℚ :=
  match drawdowns vs with
  | [] => 0
  | d :: ds => ds.foldl min d

/-! ## Price history assembly (`_ensure_price_history`, lines 98-127)

The stored history handed to `_ensure_price_history` is the result of
`load_price_history_for_tickers`: per ticker, the `(date, close)` rows in
range, `close` possibly NULL.  The external provider (`get_history` in
`services/market_data.py`) yields dated closes or an `HTTPException`
(502 on a download error, 404 when no data comes back). -/

/-- One row of the long-format `price_df`. -/
structure PriceRow where
  date : ℤ
  ticker : String
  close : ℚ
deriving DecidableEq, Repr

/-- First loop of `_ensure_price_history`: rows contributed by tickers
that have stored items, keeping only non-NULL closes.  (A ticker whose
stored items exist but all have NULL closes contributes nothing and is
still not treated as missing.) -/
def storedRows (tickers : List String) (dbRows : String → List (ℤ × Option ℚ)) :
    List PriceRow :=
  tickers.flatMap (fun t =>
    (dbRows t).filterMap (fun r => r.2.map (fun c => PriceRow.mk r.1 t c)))

/-- Tickers with no stored items at all (the `missing` list). -/
def missingTickers (tickers : List String) (dbRows : String → List (ℤ × Option ℚ)) :
    List String :=
  tickers.filter (fun t => dbRows t = [])

/-- Second loop of `_ensure_price_history`: fetch each missing ticker
from the provider; a provider `HTTPException` is re-raised as a 400 with
the ticker and the original detail, aborting at the first failure. -/
def fetchMissing (ph : String → Except HErr (List (ℤ × ℚ))) :
    List String → Except HErr (List PriceRow)
  | [] => .ok []
  | t :: ts =>
    match ph t with
    | .error e =>
      .error ⟨400, "Missing price data for " ++ t ++ ": " ++ e.detail⟩
    | .ok data =>
      match fetchMissing ph ts with
      | .error e => .error e
      | .ok rest => .ok (data.map (fun r => PriceRow.mk r.1 t r.2) ++ rest)

/-- Embeds `_ensure_price_history`: stored rows plus fetched rows, failing with
400 when the combined frame is empty. -/
def ensurePriceHistory (tickers : List String) (dbRows : String → List (ℤ × Option ℚ))
    (ph : String → Except HErr (List (ℤ × ℚ))) : Except HErr (List PriceRow) :=
  match fetchMissing ph (missingTickers tickers dbRows) with
  | .error e => .error e
  | .ok fetched =>
    let rows := storedRows tickers dbRows ++ fetched
    if rows = [] then
      .error ⟨400, "No price data available for requested portfolio."⟩
    else .ok rows

/-- Provider calls actually issued by the fetch loop (it stops at the
first failure). -/
def fetchCalls (ph : String → Except HErr (List (ℤ × ℚ))) :
    List String → List String
  | [] => []
  | t :: ts =>
    t :: (match ph t with
          | .error _ => []
          | .ok _ => fetchCalls ph ts)

/-! ## Price pivot, forward fill and the value series
(lines 194-213 of `compute_portfolio_metrics`) -/

/-- The pivot cell for `(t, d)`:
`pivot_table(index="date", columns="ticker", values="close",
aggfunc="last")` keeps the last row in frame order when `(t, d)` repeats.
-/
def pivotLast (rows : List PriceRow) (t : String) (d : ℤ) : Option ℚ :=
  ((rows.filter (fun r => r.ticker = t ∧ r.date = d)).map PriceRow.close).getLast?

/-- Price of ticker `t` at grid day `d` after
`sort_index().reindex(date_index)` and `ffill()`: the last defined pivot
cell over the grid days up to `d` (off-grid row dates are dropped by the
reindex before the fill; `None` before the first known close — no
backward fill). -/
def ffillPrice (rows : List PriceRow) (t : String) (grid : List ℤ) (d : ℤ) :
    Option ℚ :=
  ((grid.filter (· ≤ d)).filterMap (pivotLast rows t)).getLast?

/-- Portfolio value on day `d`: `(positions * prices).sum(axis=1)` —
pandas skips NaN products, so a ticker without a resolved price
contributes nothing, and a day where no ticker has a price sums to 0
(also matching the final `fillna(0.0)`). -/
def portfolioValueOn (txs : List Tx) (rows : List PriceRow) (active : List String)
    (s : ℤ) (grid : List ℤ) (d : ℤ) : ℚ :=
  (active.map (fun t =>
    match ffillPrice rows t grid d with
    | some p => cumQty txs t s d * p
    | none => 0)).sum

/-! ## Scalar statistics (lines 220-270 of `compute_portfolio_metrics`)

`rt` models `np.sqrt` and `rpow` models float `**` with a fractional
exponent; both are real-valued and irrational in general, so they are
taken as parameters.  Theorems that need them assume only that `rt`
preserves positivity on nonnegative inputs, which `np.sqrt` satisfies. -/

/-- The metrics payload (`PortfolioMetricsResponse` fields computed by
the engine; request echoes `portfolio_id/start/end/rf/mar` omitted). -/
structure MetricsOut where
  nDays : ℕ
  tickers : List String
  annReturn : Option ℚ
  annVolatility : Option ℚ
  sharpe : Option ℚ
  sortino : Option ℚ
  calmar : Option ℚ
  maxDrawdown : ℚ
  downsideVolatility : Option ℚ
deriving DecidableEq, Repr

/-- Lines 220-270: the scalar statistics over the derived return array
and the full value series. -/
def statsOf (rt : ℚ → ℚ) (rpow : ℚ → ℚ → ℚ) (returns values : List ℚ)
    (active : List String) (rf mar : ℚ) : MetricsOut :=
  let n : ℕ := returns.length
  let rfDaily := rpow (1 + rf) (1 / 252) - 1
  let marDaily := rpow (1 + mar) (1 / 252) - 1
  let totalGrowth := (returns.map (· + 1)).prod
  let annReturn : Option ℚ :=
    if 0 < totalGrowth then some (rpow totalGrowth (252 / (n : ℚ)) - 1) else none
  let meanDaily := returns.sum / (n : ℚ)
  let stdDaily := rt (((returns.map (fun r => (r - meanDaily) ^ 2)).sum) / (n : ℚ))
  let annVolatility : Option ℚ :=
    if 0 < stdDaily then some (stdDaily * rt 252) else none
  let sharpe : Option ℚ :=
    if 0 < stdDaily then some (((meanDaily - rfDaily) / stdDaily) * rt 252) else none
  let downside := returns.filter (· < marDaily)
  let downsideStd : ℚ :=
    if downside ≠ [] then
      rt (((downside.map (fun r => (r - marDaily) ^ 2)).sum) / (downside.length : ℚ))
    else 0
  let downsideVolatility : Option ℚ :=
    if 0 < downsideStd then some (downsideStd * rt 252) else none
  let sortino : Option ℚ :=
    match downsideVolatility, annReturn with
    | some dv, some ar => if 0 < dv then some ((ar - mar) / dv) else none
    | _, _ => none
  let mdd := maxDrawdown values
  let calmar : Option ℚ :=
    match annReturn with
    | some ar => if mdd < 0 then some (ar / |mdd|) else none
    | none => none
  { nDays := n
    tickers := active
    annReturn := annReturn
    annVolatility := annVolatility
    sharpe := sharpe
    sortino := sortino
    calmar := calmar
    maxDrawdown := mdd
    downsideVolatility := downsideVolatility }

/-! ## The whole metrics request (`compute_portfolio_metrics`,
lines 166-270)

The collaborators are explicit: `ledger` is the portfolio's full
transaction list, `priceTable` the shared price store (`(ticker, date,
close)` rows, close possibly NULL), `ph` the external provider's
`get_history`.  Alongside the result, the embedding records which
collaborator reads were issued, in order. -/

/-- A read issued against a collaborator. -/
inductive Query where
  | ledgerRead
  | priceStoreRead
  | providerCall (t : String)
deriving DecidableEq, Repr

/-- The collaborators of a metrics request. -/
structure Ctx where
  ledger : List Tx
  priceTable : List (String × ℤ × Option ℚ)
  ph : String → Except HErr (List (ℤ × ℚ))

/-- Embeds `load_price_history_for_tickers` (crud_prices.py, lines 140-159)
restricted to one ticker: the stored `(date, close)` rows for the
uppercased ticker within `[s, e]`, ordered by date.  The tickers the
engine passes in are already uppercase (they come from stored
transactions). -/
def loadPriceHistory (table : List (String × ℤ × Option ℚ)) (t : String)
    (s e : ℤ) : List (ℤ × Option ℚ) :=
  ((table.filter (fun r => r.1 = upperStr t ∧ s ≤ r.2.1 ∧ r.2.1 ≤ e)).map
    (fun r => r.2)).insertionSort (fun a b => a.1 ≤ b.1)

/-- Stages of `compute_portfolio_metrics` up to the value series
(lines 175-213): range guard, ledger fetch, ticker set, grid, stored
prices, provider fill-in, valid/active column restriction, and the value
series with its zero-value guard.  Returns the grid, the active tickers,
the price rows and the value series, plus the trace of reads. -/
def pipelineCore (ctx : Ctx) (start endD : ℤ) :
    Except HErr (List ℤ × List String × List PriceRow × List ℚ) × List Query :=
  if endD < start then
    (.error ⟨400, "start must be before or equal to end"⟩, [])
  else
    let txs := ctx.ledger.filter (fun tx => tx.date ≤ endD)
    let q1 : List Query := [.ledgerRead]
    if txs = [] then
      (.error ⟨400, "Portfolio has no transactions in the requested range"⟩, q1)
    else
      let tickers := sortedTickers txs
      if tickers = [] then
        (.error ⟨400, "Portfolio has no equity transactions"⟩, q1)
      else
        let effStart := effectiveStart txs start
        let grid := dateGrid effStart endD
        let dbRows : String → List (ℤ × Option ℚ) :=
          fun t => loadPriceHistory ctx.priceTable t effStart endD
        let q2 := q1 ++ [Query.priceStoreRead]
        let q3 := q2 ++ (fetchCalls ctx.ph (missingTickers tickers dbRows)).map .providerCall
        match ensurePriceHistory tickers dbRows ctx.ph with
        | .error e => (.error e, q3)
        | .ok rows =>
          let validColumns :=
            tickers.filter (fun t => grid.any (fun d => (ffillPrice rows t grid d).isSome))
          if validColumns = [] then
            (.error ⟨400, "Price data is unavailable for the requested tickers"⟩, q3)
          else
            let active :=
              validColumns.filter (fun t => grid.any (fun d => cumQty txs t effStart d ≠ 0))
            if active = [] then
              (.error ⟨400, "No active positions to analyze in the selected period"⟩, q3)
            else
              let values := grid.map (portfolioValueOn txs rows active effStart grid)
              if ((grid.zip values).filter (fun p => start ≤ p.1)).all (fun p => p.2 ≤ 0) then
                (.error ⟨400, "Portfolio value is zero throughout the selected period"⟩, q3)
              else
                (.ok (grid, active, rows, values), q3)

/-- Embeds `compute_portfolio_metrics` end to end: the staged pipeline, then the
return series with its emptiness guard, then the scalar statistics. -/
def computePortfolioMetrics (ctx : Ctx) (start endD : ℤ) (rf mar : ℚ)
    (rt : ℚ → ℚ) (rpow : ℚ → ℚ → ℚ) : Except HErr MetricsOut × List Query :=
  match pipelineCore ctx start endD with
  | (.error e, qs) => (.error e, qs)
  | (.ok (grid, active, _, values), qs) =>
    match returnsStep start (grid.zip values) with
    | .error e => (.error e, qs)
    | .ok returns => (.ok (statsOf rt rpow returns values active rf mar), qs)

/-- The value series a successful request computed its statistics over
(the engine does not return it; this projection exposes it for the
drawdown facts). -/
def portfolioValueSeries (ctx : Ctx) (start endD : ℤ) : Except HErr (List ℚ) :=
  match (pipelineCore ctx start endD).1 with
  | .error e => .error e
  | .ok (_, _, _, values) => .ok values

/-! ## Single-ticker metrics
(`services/calculations/metrics.py`)

The provider payload is reduced to its list of closes (every record the
provider emits carries a close).  `pct_change().dropna()` over the close
column yields the consecutive ratios minus one.  Sample standard
deviations use `ddof=1`; on a single observation pandas yields NaN,
which fails every `> 0` test — mirrored here by rational division by
zero evaluating to 0, which fails the same tests.  The final `_r`
display rounding to 6 digits maps `None` to `None` and numbers to
numbers, so it is omitted. -/

/-- Embeds `df["close"].pct_change().dropna()`. -/
def pctChangeReturns (closes : List ℚ) : List ℚ :=
  (closes.zip closes.tail).map (fun p => p.2 / p.1 - 1)

/-- Running product with seed `a` (tail of `cumprod`). -/
def cumprodAux (a : ℚ) : List ℚ → List ℚ
  | [] => []
  | v :: vs => a * v :: cumprodAux (a * v) vs

/-- Embeds `(1 + rets).cumprod()`: the equity curve. -/
def cumprod : List ℚ → List ℚ
  | [] => []
  | v :: vs => v :: cumprodAux v vs

/-- Embeds `series.std(ddof=1)` squared-argument form: the sample variance
around the series' own mean (NaN for a single observation, modelled as
the zero-denominator rational 0). -/
def sampleVar (xs : List ℚ) : ℚ :=
  let m := xs.sum / (xs.length : ℚ)
  ((xs.map (fun x => (x - m) ^ 2)).sum) / ((xs.length : ℚ) - 1)

/-- Embeds `equity / peak - 1` followed by `.min()`: the equity-curve drawdown
minimum of `basic_metrics`/`advanced_metrics` (no zero-peak branch here,
unlike the portfolio engine). -/
def equityMaxDrawdown (rets : List ℚ) : ℚ :=
  let equity := cumprod (rets.map (1 + ·))
  let dd := (equity.zip (cummax equity)).map (fun p => p.1 / p.2 - 1)
  match dd with
  | [] => 0
  | d :: ds => ds.foldl min d

/-- The fields of `advanced_metrics` the null-policy claims are about. -/
structure AdvOut where
  annReturn : ℚ
  annVolatility : ℚ
  sharpe : Option ℚ
  maxDrawdown : ℚ
  downsideVolatility : ℚ
  sortino : Option ℚ
  calmar : Option ℚ
deriving DecidableEq, Repr

/-- Embeds `advanced_metrics` (lines 66-154), statistics portion.  Note the
empty-downside branch: `downside_vol_ann = 0.0` and
`sortino = None if ann_return is None else (ann_return - mar) / 1e-12`;
`ann_return` is always a computed float at that point, never `None`, so
the embedding keeps it as a plain rational and the sortino branch always
takes the division. -/
def advancedMetrics (rt : ℚ → ℚ) (rpow : ℚ → ℚ → ℚ) (closes : List ℚ)
    (rf mar : ℚ) : Except HErr AdvOut :=
  if closes.length < 2 then
    .error ⟨400, "Se requieren al menos 2 datos de cierre."⟩
  else
    let rets := pctChangeReturns closes
    if rets = [] then
      .error ⟨400, "No hay retornos válidos para el rango indicado."⟩
    else
      let meanDaily := rets.sum / (rets.length : ℚ)
      let stdDaily := rt (sampleVar rets)
      let annReturn := (1 + meanDaily) ^ (252 : ℕ) - 1
      let annVolatility := stdDaily * rt 252
      let rfDaily := if rf ≠ 0 then rpow (1 + rf) (1 / 252) - 1 else 0
      let annExcess := ((rets.map (· - rfDaily)).sum / (rets.length : ℚ)) * 252
      let sharpe : Option ℚ :=
        if 0 < annVolatility then some (annExcess / annVolatility) else none
      let maxDD := equityMaxDrawdown rets
      let marDaily := if mar ≠ 0 then rpow (1 + mar) (1 / 252) - 1 else 0
      let downside := rets.filter (· < marDaily)
      let downsideVolatility : ℚ :=
        if downside = [] then 0 else rt (sampleVar downside) * rt 252
      let sortino : Option ℚ :=
        if downside = [] then some ((annReturn - mar) / (1 / 10 ^ 12))
        else if 0 < downsideVolatility then some ((annReturn - mar) / downsideVolatility)
        else none
      let calmar : Option ℚ :=
        if maxDD < 0 then some (annReturn / |maxDD|) else none
      .ok { annReturn := annReturn
            annVolatility := annVolatility
            sharpe := sharpe
            maxDrawdown := maxDD
            downsideVolatility := downsideVolatility
            sortino := sortino
            calmar := calmar }

/-- The fields of `basic_metrics` the null-policy claims are about. -/
structure BasicOut where
  annReturn : ℚ
  annVolatility : ℚ
  sharpe : Option ℚ
  maxDrawdown : ℚ
deriving DecidableEq, Repr

/-- Embeds `basic_metrics` (lines 15-64), statistics portion. -/
def basicMetrics (rt : ℚ → ℚ) (rpow : ℚ → ℚ → ℚ) (closes : List ℚ)
    (rf : ℚ) : Except HErr BasicOut :=
  if closes.length < 2 then
    .error ⟨400, "Se requieren al menos 2 datos de cierre."⟩
  else
    let rets := pctChangeReturns closes
    if rets = [] then
      .error ⟨400, "No hay retornos válidos para el rango indicado."⟩
    else
      let meanDaily := rets.sum / (rets.length : ℚ)
      let stdDaily := rt (sampleVar rets)
      let annReturn := (1 + meanDaily) ^ (252 : ℕ) - 1
      let annVolatility := stdDaily * rt 252
      let rfDaily := if rf ≠ 0 then rpow (1 + rf) (1 / 252) - 1 else 0
      let annExcess := ((rets.map (· - rfDaily)).sum / (rets.length : ℚ)) * 252
      let sharpe : Option ℚ :=
        if 0 < annVolatility then some (annExcess / annVolatility) else none
      .ok { annReturn := annReturn
            annVolatility := annVolatility
            sharpe := sharpe
            maxDrawdown := equityMaxDrawdown rets }

/-! ## Price store (`db/crud_prices.py`)

The store is a list of rows, unique per `(ticker, date)` (enforced by
`ix_prices_ticker_date`; the upsert preserves it).  `_to_decimal` there
is `Decimal(str(round(float(value), 6)))` — a 6-digit rounding (ties to
even, Python `round`); `_to_date` is the identity on the day numbers of
this model. -/

/-- A stored `Price` row. -/
structure PriceEntry where
  ticker : String
  date : ℤ
  openP : Option ℚ
  highP : Option ℚ
  lowP : Option ℚ
  close : Option ℚ
  volume : Option ℤ
deriving DecidableEq, Repr

/-- A raw OHLCV bar handed to `upsert_prices`. -/
structure RawBar where
  date : ℤ
  openP : Option ℚ
  highP : Option ℚ
  lowP : Option ℚ
  close : Option ℚ
  volume : Option ℤ
deriving DecidableEq, Repr

/-- Embeds `_to_decimal` of `crud_prices.py`: round to 6 fractional digits. -/
def priceToDecimal (v : Option ℚ) : Option ℚ :=
  v.map (quantizeHalfEven 6)

/-- The row `upsert_prices` builds for one bar under the uppercased
ticker `tk`. -/
def payloadRow (tk : String) (b : RawBar) : PriceEntry :=
  ⟨tk, b.date, priceToDecimal b.openP, priceToDecimal b.highP,
    priceToDecimal b.lowP, priceToDecimal b.close, b.volume⟩

/-- Embeds `ON CONFLICT (ticker, date) DO UPDATE`: replace the row with the same
key, else insert. -/
def upsertOne (store : List PriceEntry) (e : PriceEntry) : List PriceEntry :=
  if store.any (fun r => r.ticker = e.ticker ∧ r.date = e.date) then
    store.map (fun r => if r.ticker = e.ticker ∧ r.date = e.date then e else r)
  else store ++ [e]

/-- Embeds `upsert_prices` (lines 26-61): uppercase the ticker once, then upsert
every bar under it. -/
def upsertPrices (store : List PriceEntry) (ticker : String) (rows : List RawBar) :
    List PriceEntry :=
  let tk := upperStr ticker
  rows.foldl (fun s b => upsertOne s (payloadRow tk b)) store

/-- Embeds `read_prices_range` (lines 64-75): rows of the uppercased ticker in
range, ordered by date ascending. -/
def readPricesRange (store : List PriceEntry) (ticker : String) (s : ℤ)
    (e : Option ℤ) : List PriceEntry :=
  (store.filter (fun r => decide (r.ticker = upperStr ticker) && decide (s ≤ r.date) &&
    e.all (fun e1 => r.date ≤ e1))).insertionSort (fun a b => a.date ≤ b.date)

/-- Embeds `count_prices_range` (lines 84-94). -/
def countPricesRange (store : List PriceEntry) (ticker : String) (s : ℤ)
    (e : Option ℤ) : ℕ :=
  (store.filter (fun r => decide (r.ticker = upperStr ticker) && decide (s ≤ r.date) &&
    e.all (fun e1 => r.date ≤ e1))).length

/-- Embeds `read_prices_range_paged` (lines 97-110). -/
def readPricesRangePaged (store : List PriceEntry) (ticker : String) (s : ℤ)
    (e : Option ℤ) (limit offset : ℕ) : List PriceEntry :=
  ((readPricesRange store ticker s e).drop offset).take limit

/-- Embeds `get_last_date` (lines 78-81): max stored date of the uppercased
ticker. -/
def getLastDate (store : List PriceEntry) (ticker : String) : Option ℤ :=
  ((store.filter (fun r => r.ticker = upperStr ticker)).map PriceEntry.date).max?

/-- Embeds `get_last_price` (lines 113-121): the row with the greatest date for
the uppercased ticker (keys are unique, so ties do not arise; the fold
keeps the earlier row on a tie). -/
def getLastPrice (store : List PriceEntry) (ticker : String) : Option PriceEntry :=
  (store.filter (fun r => r.ticker = upperStr ticker)).foldl
    (fun acc r =>
      match acc with
      | none => some r
      | some b => if b.date < r.date then some r else some b)
    none

/-- Embeds `get_latest_prices_for` (lines 124-137): normalize the requested
tickers (uppercase, dedup, sort) and map each to its latest row when one
exists. -/
def getLatestPricesFor (store : List PriceEntry) (tickers : List String) :
    List (String × PriceEntry) :=
  (((tickers.filter (fun t => t ≠ "")).map upperStr).dedup.insertionSort
    (· ≤ ·)).filterMap
    (fun t => (getLastPrice store t).map (fun r => (t, r)))

instance {ε α : Type} [DecidableEq ε] [DecidableEq α] :
    DecidableEq (Except ε α) := fun x y =>
  match x, y with
  | .error a, .error b => decidable_of_iff (a = b) (by simp)
  | .ok a, .ok b => decidable_of_iff (a = b) (by simp)
  | .error _, .ok _ => isFalse (by simp)
  | .ok _, .error _ => isFalse (by simp)

/-- A concrete metrics request: short one share of A on day 1 at price 1,
buy two on day 2 at price 5, with stored prices 1, 1, 5, 5 on days
0-3 and the window `[0, 3]`. -/
def ctxShortDip : Ctx :=
  { ledger := [⟨"A", 1, .SELL, some 1, some 1, none⟩,
               ⟨"A", 2, .BUY, some 2, some 1, none⟩]
    priceTable := [("A", 0, some 1), ("A", 1, some 1),
                   ("A", 2, some 5), ("A", 3, some 5)]
    ph := fun _ => .error ⟨502, "unused"⟩ }

/-! ## Theorems

Rational arithmetic is `@[irreducible]` in Mathlib, which blocks `decide`
on concrete inputs; the section below restores the default reducibility
locally (a hint only — no axioms or soundness impact). -/

section ConcreteEvaluation

set_option allowUnsafeReducibility true

attribute [local semireducible] Rat.add Rat.mul Rat.sub Rat.inv

/-- C8: a metrics request with `start > end` fails immediately with the
invalid-input error, for every ledger, price store and provider alike,
and issues no collaborator read at all. -/
theorem metrics_start_after_end_rejected (ctx : Ctx) (start endD : ℤ) (rf mar : ℚ)
    (rt : ℚ → ℚ) (rpow : ℚ → ℚ → ℚ) (h : endD < start) :
    computePortfolioMetrics ctx start endD rf mar rt rpow =
      (.error ⟨400, "start must be before or equal to end"⟩, []) := by
  unfold computePortfolioMetrics pipelineCore
  simp [h]

/-- Witness for C8 at a concrete request with `start = 5 > 4 = end`. -/
theorem metrics_start_after_end_rejected_witness :
    computePortfolioMetrics ⟨[], [], fun _ => .error ⟨502, "boom"⟩⟩ 5 4 0 0
        id (fun a _ => a) =
      (.error ⟨400, "start must be before or equal to end"⟩, []) :=
  metrics_start_after_end_rejected _ 5 4 0 0 id (fun a _ => a) (by decide)

/-- C3: the derived return series is exactly, in order, `current/prior - 1`
over the consecutive pairs whose prior date is at least `start` and whose
prior value is positive (other pairs are skipped), and the engine rejects
the request precisely when that list is empty. -/
theorem computeReturns_pairs_and_rejection (start : ℤ) (vs : List (ℤ × ℚ)) :
    computeReturns start vs =
      (vs.zip vs.tail).filterMap (fun p =>
        if start ≤ p.1.1 ∧ 0 < p.1.2 then some (p.2.2 / p.1.2 - 1) else none) ∧
    (returnsStep start vs =
        .error ⟨400, "Not enough observations to compute metrics"⟩ ↔
      (vs.zip vs.tail).filterMap (fun p =>
        if start ≤ p.1.1 ∧ 0 < p.1.2 then some (p.2.2 / p.1.2 - 1) else none) = []) := by
  have hmain : computeReturns start vs =
      (vs.zip vs.tail).filterMap (fun p =>
        if start ≤ p.1.1 ∧ 0 < p.1.2 then some (p.2.2 / p.1.2 - 1) else none) := by
    induction vs with
    | nil => simp [computeReturns]
    | cons hd tl ih =>
      cases tl with
      | nil => simp [computeReturns]
      | cons hd2 tl2 =>
        rw [computeReturns]
        rw [ih]
        rcases hd with ⟨d0, v0⟩
        by_cases h1 : start ≤ d0
        · by_cases h2 : 0 < v0
          · simp [h1, h2]
          · simp [h1, h2]
        · simp [h1]
  refine ⟨hmain, ?_⟩
  rw [returnsStep]
  constructor
  · intro h
    by_cases hc : computeReturns start vs = []
    · rw [← hmain]; exact hc
    · simp [hc] at h
  · intro h
    rw [hmain] at *
    simp [h]

/-! ### Position snapshot facts (C9, C6) -/

theorem positionRow_ticker (dbClose : String → Option ℚ)
    (fallback : String → Except Unit ℚ) (r : String × ℚ × ℚ) :
    (positionRow dbClose fallback r).ticker = r.1 := rfl

theorem sortedTickers_pairwise (txs : List Tx) :
    List.Pairwise (· < ·) (sortedTickers txs) := by
  have hs : List.Sorted (· ≤ ·) (sortedTickers txs) :=
    List.sorted_insertionSort (· ≤ ·) _
  have hn : (sortedTickers txs).Nodup :=
    (List.perm_insertionSort (· ≤ ·) _).nodup_iff.mpr (txs.map Tx.ticker).nodup_dedup
  exact hs.lt_of_le hn

theorem aggregatePositions_pairwise (txs : List Tx) :
    List.Pairwise (fun a b : String × ℚ × ℚ => a.1 < b.1) (aggregatePositions txs) :=
  (sortedTickers_pairwise txs).map _ (fun _ _ h => h)

/-- The results of `compute_positions` are built in ticker order already
(the aggregate rows arrive sorted), so the final sort is the identity. -/
theorem computePositions_eq (txs : List Tx) (dbClose : String → Option ℚ)
    (fallback : String → Except Unit ℚ) :
    computePositions txs dbClose fallback =
      ((aggregatePositions txs).filter (fun r => r.2.1 ≠ 0)).map
        (positionRow dbClose fallback) := by
  have h2 := (aggregatePositions_pairwise txs).filter (fun r => decide (r.2.1 ≠ 0))
  have h3 : List.Pairwise (fun a b : PositionOut => a.ticker ≤ b.ticker)
      (((aggregatePositions txs).filter (fun r => r.2.1 ≠ 0)).map
        (positionRow dbClose fallback)) := by
    refine h2.map _ (fun a b h => ?_)
    rw [positionRow_ticker, positionRow_ticker]
    exact le_of_lt h
  exact List.Sorted.insertionSort_eq h3

theorem netQty_eq_buy_sub_sell (txs : List Tx) (t : String) :
    netQty txs t =
      ((txs.filter (fun tx => tx.ticker = t ∧ tx.type = .BUY)).map
        (fun tx => tx.quantity.getD 0)).sum -
      ((txs.filter (fun tx => tx.ticker = t ∧ tx.type = .SELL)).map
        (fun tx => tx.quantity.getD 0)).sum := by
  induction txs with
  | nil => simp [netQty]
  | cons hd tl ih =>
    unfold netQty at ih ⊢
    by_cases ht : hd.ticker = t
    · cases htype : hd.type <;>
        simp [List.filter_cons, ht, htype, signedQty, ih] <;> ring
    · simp [List.filter_cons, ht, ih]

/-- C9: `compute_positions` never returns a ticker whose net signed
quantity (sum of +quantity over its BUYs minus sum of quantity over its
SELLs) is exactly zero, and the returned rows are strictly ascending by
ticker. -/
theorem computePositions_no_zero_net_and_sorted (txs : List Tx)
    (dbClose : String → Option ℚ) (fallback : String → Except Unit ℚ) :
    (∀ p ∈ computePositions txs dbClose fallback,
      ((txs.filter (fun tx => tx.ticker = p.ticker ∧ tx.type = .BUY)).map
        (fun tx => tx.quantity.getD 0)).sum -
      ((txs.filter (fun tx => tx.ticker = p.ticker ∧ tx.type = .SELL)).map
        (fun tx => tx.quantity.getD 0)).sum ≠ 0) ∧
    List.Sorted (fun a b : PositionOut => a.ticker < b.ticker)
      (computePositions txs dbClose fallback) := by
  constructor
  · intro p hp
    rw [computePositions_eq] at hp
    rcases List.mem_map.mp hp with ⟨r, hr, rfl⟩
    rcases List.mem_filter.mp hr with ⟨hrA, hrQ⟩
    rcases List.mem_map.mp hrA with ⟨t, _, rfl⟩
    rw [positionRow_ticker, ← netQty_eq_buy_sub_sell]
    exact of_decide_eq_true hrQ
  · rw [computePositions_eq]
    have h2 := (aggregatePositions_pairwise txs).filter (fun r => decide (r.2.1 ≠ 0))
    refine h2.map _ (fun a b h => ?_)
    rw [positionRow_ticker, positionRow_ticker]
    exact h

theorem quantizeHalfUp_zero (n : ℕ) : quantizeHalfUp n 0 = 0 := by
  norm_num [quantizeHalfUp, roundHalfAwayZ]

theorem positionRow_no_price (dbClose : String → Option ℚ)
    (fallback : String → Except Unit ℚ) (r : String × ℚ × ℚ)
    (hdb : dbClose r.1 = none) (hfb : fallback r.1 = .error ()) :
    (positionRow dbClose fallback r).marketPrice = none ∧
    (positionRow dbClose fallback r).marketValue = 0 ∧
    (positionRow dbClose fallback r).unrealizedPnl = 0 := by
  unfold positionRow
  simp [hdb, hfb, quantizeHalfUp_zero]

theorem positionRow_fallback_congr (dbClose : String → Option ℚ)
    (fb1 fb2 : String → Except Unit ℚ) (r : String × ℚ × ℚ)
    (h : fb1 r.1 = fb2 r.1) :
    positionRow dbClose fb1 r = positionRow dbClose fb2 r := by
  simp only [positionRow, h]

/-- C6: inside `compute_positions`, a provider failure during the
fallback price lookup of a ticker with no stored close never aborts the
request — that ticker is returned with a null market price, zero market
value and zero unrealized PnL — and the rows of every other ticker are
identical to what any non-failing provider behaviour at that ticker
would have produced. -/
theorem computePositions_provider_failure_isolated (txs : List Tx)
    (dbClose : String → Option ℚ) (fb1 fb2 : String → Except Unit ℚ) (t : String)
    (hdb : dbClose t = none) (hfail : fb1 t = .error ())
    (hagree : ∀ u, u ≠ t → fb1 u = fb2 u) :
    (∀ p ∈ computePositions txs dbClose fb1, p.ticker = t →
      p.marketPrice = none ∧ p.marketValue = 0 ∧ p.unrealizedPnl = 0) ∧
    (computePositions txs dbClose fb1).filter (fun p => p.ticker ≠ t) =
      (computePositions txs dbClose fb2).filter (fun p => p.ticker ≠ t) := by
  constructor
  · intro p hp hpt
    rw [computePositions_eq] at hp
    rcases List.mem_map.mp hp with ⟨r, _, rfl⟩
    have hr1 : r.1 = t := by rw [← positionRow_ticker dbClose fb1 r]; exact hpt
    exact positionRow_no_price dbClose fb1 r (hr1 ▸ hdb) (hr1 ▸ hfail)
  · rw [computePositions_eq, computePositions_eq, List.filter_map, List.filter_map]
    have hpred : ∀ fb : String → Except Unit ℚ,
        ((fun p : PositionOut => decide (p.ticker ≠ t)) ∘ positionRow dbClose fb) =
          fun r => decide (r.1 ≠ t) := by
      intro fb
      funext r
      simp [Function.comp, positionRow_ticker]
    rw [hpred fb1, hpred fb2]
    refine List.map_congr_left (fun r hr => ?_)
    rcases List.mem_filter.mp hr with ⟨-, hrt⟩
    exact positionRow_fallback_congr dbClose fb1 fb2 r
      (hagree r.1 (of_decide_eq_true hrt))

/-- Witness for C6: two tickers, no stored prices, a provider that fails
on both, compared against one that answers for the failing ticker. -/
theorem computePositions_provider_failure_isolated_witness :
    ((fun _ : String => (none : Option ℚ)) "A" = none ∧
      (fun _ : String => (Except.error () : Except Unit ℚ)) "A" = .error () ∧
      ∀ u : String, u ≠ "A" →
        (fun _ : String => (Except.error () : Except Unit ℚ)) u =
          (fun v : String => if v = "A" then (Except.ok 5 : Except Unit ℚ)
            else .error ()) u) ∧
    ((∀ p ∈ computePositions
        [⟨"A", 0, .BUY, some 1, some 2, none⟩, ⟨"B", 0, .BUY, some 1, some 3, none⟩]
        (fun _ => none) (fun _ => .error ()), p.ticker = "A" →
        p.marketPrice = none ∧ p.marketValue = 0 ∧ p.unrealizedPnl = 0) ∧
      (computePositions
        [⟨"A", 0, .BUY, some 1, some 2, none⟩, ⟨"B", 0, .BUY, some 1, some 3, none⟩]
        (fun _ => none) (fun _ => .error ())).filter (fun p => p.ticker ≠ "A") =
      (computePositions
        [⟨"A", 0, .BUY, some 1, some 2, none⟩, ⟨"B", 0, .BUY, some 1, some 3, none⟩]
        (fun _ => none) (fun v => if v = "A" then .ok 5 else .error ())).filter
          (fun p => p.ticker ≠ "A")) :=
  ⟨⟨rfl, rfl, fun u hu => by simp [hu]⟩,
    computePositions_provider_failure_isolated _ _ _ _ "A" rfl rfl
      (fun u hu => by simp [hu])⟩

/-! ### Position reconstruction facts (C4) -/

theorem mem_dateGrid {s e d : ℤ} : d ∈ dateGrid s e ↔ s ≤ d ∧ d ≤ e := by
  unfold dateGrid
  simp only [List.mem_map, List.mem_range]
  constructor
  · rintro ⟨i, hi, rfl⟩
    omega
  · rintro ⟨h1, h2⟩
    exact ⟨(d - s).toNat, by omega, by omega⟩

theorem dateGrid_nodup (s e : ℤ) : (dateGrid s e).Nodup := by
  unfold dateGrid
  refine (List.nodup_range _).map ?_
  intro a b h
  dsimp at h
  omega

theorem sum_map_add_split (G : List ℤ) (f g : ℤ → ℚ) :
    (G.map (fun d => f d + g d)).sum = (G.map f).sum + (G.map g).sum := by
  induction G with
  | nil => simp
  | cons x G ih => simp [ih]; ring

theorem sum_ite_mem (d0 : ℤ) (v : ℚ) (P : Prop) [Decidable P] (G : List ℤ)
    (hG : G.Nodup) :
    (G.map (fun d => if P ∧ d0 = d then v else 0)).sum =
      if P ∧ d0 ∈ G then v else 0 := by
  induction G with
  | nil => simp
  | cons g G ih =>
    rcases List.nodup_cons.mp hG with ⟨hg, hG'⟩
    rw [List.map_cons, List.sum_cons, ih hG']
    by_cases hP : P <;> by_cases hdg : d0 = g <;> by_cases hmem : d0 ∈ G <;>
      simp_all [List.mem_cons]

theorem sum_deltas (t : String) (G : List ℤ) (hG : G.Nodup) (R : List Tx) :
    (G.map (fun d =>
      ((R.filter (fun tx => tx.ticker = t ∧ tx.date = d)).map signedQty).sum)).sum =
      (R.map (fun tx =>
        if tx.ticker = t ∧ tx.date ∈ G then signedQty tx else 0)).sum := by
  induction R with
  | nil => simp
  | cons tx R ih =>
    have hsplit : ∀ d : ℤ,
        (((tx :: R).filter (fun tx1 => tx1.ticker = t ∧ tx1.date = d)).map
          signedQty).sum =
          (if tx.ticker = t ∧ tx.date = d then signedQty tx else 0) +
            ((R.filter (fun tx1 => tx1.ticker = t ∧ tx1.date = d)).map
              signedQty).sum := by
      intro d
      by_cases h : tx.ticker = t ∧ tx.date = d
      · simp [List.filter_cons, h]
      · simp [List.filter_cons, h]
    simp only [hsplit]
    rw [sum_map_add_split, sum_ite_mem tx.date (signedQty tx) (tx.ticker = t) G hG,
      ih]
    simp

theorem txRecords_cons (tx : Tx) (txs : List Tx) :
    txRecords (tx :: txs) =
      if (tx.type = .BUY ∨ tx.type = .SELL) ∧ signedQty tx ≠ 0 then
        tx :: txRecords txs
      else txRecords txs := by
  unfold txRecords
  rw [List.filter_cons]
  by_cases h : (tx.type = .BUY ∨ tx.type = .SELL) ∧ signedQty tx ≠ 0 <;> simp [h]

theorem sum_over_txRecords (txs : List Tx) (g : Tx → Prop) [DecidablePred g] :
    ((txRecords txs).map (fun tx => if g tx then signedQty tx else 0)).sum =
      (txs.map (fun tx => if g tx then signedQty tx else 0)).sum := by
  induction txs with
  | nil => rfl
  | cons tx txs ih =>
    rw [txRecords_cons]
    by_cases hk : (tx.type = .BUY ∨ tx.type = .SELL) ∧ signedQty tx ≠ 0
    · rw [if_pos hk]
      simp [ih]
    · rw [if_neg hk]
      have h0 : signedQty tx = 0 := by
        rcases htype : tx.type with _ | _ | _ | _
        · by_contra hz
          exact hk ⟨Or.inl htype, hz⟩
        · by_contra hz
          exact hk ⟨Or.inr htype, hz⟩
        · simp [signedQty, htype]
        · simp [signedQty, htype]
      simp [ih, h0]

/-- The cumulative grid quantity as a single pass over the fetched
ledger. -/
theorem cumQty_as_ledger_ite (txs : List Tx) (t : String) (s d : ℤ) :
    cumQty txs t s d =
      (txs.map (fun tx =>
        if tx.ticker = t ∧ tx.date ∈ dateGrid s d then signedQty tx else 0)).sum := by
  unfold cumQty qtyDeltaOn
  rw [sum_deltas t _ (dateGrid_nodup s d) (txRecords txs)]
  exact sum_over_txRecords txs _

theorem foldl_min_le_init (l : List Tx) (a : ℤ) :
    l.foldl (fun m tx => min m tx.date) a ≤ a := by
  induction l generalizing a with
  | nil => simp
  | cons tx l ih => exact le_trans (ih (min a tx.date)) (min_le_left _ _)

theorem foldl_min_le_mem (l : List Tx) (a : ℤ) (tx : Tx) (h : tx ∈ l) :
    l.foldl (fun m tx1 => min m tx1.date) a ≤ tx.date := by
  induction l generalizing a with
  | nil => cases h
  | cons hd l ih =>
    rcases List.mem_cons.mp h with rfl | h2
    · exact le_trans (foldl_min_le_init l _) (min_le_right _ _)
    · exact ih _ h2

theorem firstTxDate_le (txs : List Tx) (tx : Tx) (h : tx ∈ txs) :
    firstTxDate txs ≤ tx.date := by
  cases txs with
  | nil => cases h
  | cons hd tl =>
    unfold firstTxDate
    rcases List.mem_cons.mp h with rfl | h2
    · exact foldl_min_le_init tl _
    · exact foldl_min_le_mem tl _ _ h2

theorem sum_ite_drop_post_end (L : List Tx) (t : String) (d endD : ℤ)
    (hde : d ≤ endD) :
    ((L.filter (fun tx => tx.date ≤ endD)).map (fun tx =>
      if tx.ticker = t ∧ tx.date ≤ d then signedQty tx else 0)).sum =
      (L.map (fun tx =>
        if tx.ticker = t ∧ tx.date ≤ d then signedQty tx else 0)).sum := by
  induction L with
  | nil => rfl
  | cons tx L ih =>
    by_cases hk : tx.date ≤ endD
    · simp only [List.filter_cons]
      simp [hk, ih]
    · have h0 : ¬(tx.ticker = t ∧ tx.date ≤ d) := fun h => hk (le_trans h.2 hde)
      simp only [List.filter_cons]
      simp [hk, h0, ih]

theorem sum_ite_split_buy_sell (L : List Tx) (t : String) (d : ℤ) :
    (L.map (fun tx =>
      if tx.ticker = t ∧ tx.date ≤ d then signedQty tx else 0)).sum =
      ((L.filter (fun tx => tx.ticker = t ∧ tx.type = .BUY ∧ tx.date ≤ d)).map
        (fun tx => tx.quantity.getD 0)).sum -
      ((L.filter (fun tx => tx.ticker = t ∧ tx.type = .SELL ∧ tx.date ≤ d)).map
        (fun tx => tx.quantity.getD 0)).sum := by
  induction L with
  | nil => simp
  | cons tx L ih =>
    by_cases ht : tx.ticker = t
    · by_cases hdle : tx.date ≤ d
      · cases htype : tx.type
        · have hsq : signedQty tx = tx.quantity.getD 0 := by
            simp [signedQty, htype]
          simp [List.filter_cons, ht, hdle, htype, hsq, ih]
          ring
        · have hsq : signedQty tx = -(tx.quantity.getD 0) := by
            simp [signedQty, htype]
          simp [List.filter_cons, ht, hdle, htype, hsq, ih]
          ring
        · have hsq : signedQty tx = 0 := by simp [signedQty, htype]
          simp [List.filter_cons, ht, hdle, htype, hsq, ih]
        · have hsq : signedQty tx = 0 := by simp [signedQty, htype]
          simp [List.filter_cons, ht, hdle, htype, hsq, ih]
      · simp [List.filter_cons, ht, hdle, ih]
    · simp [List.filter_cons, ht, ih]

/-- C4: for a ledger fetched with upper bound `end`, the reconstructed
cumulative quantity of ticker `t` at any grid day `d` equals the net of
all BUYs minus SELLs of `t` dated at most `d` — over the portfolio's
whole transaction list, since transactions dated after the grid's last
day can never satisfy `date ≤ d`; DIVIDEND/FEE rows never contribute. -/
theorem cumQty_matches_ledger (L : List Tx) (t : String) (start endD d : ℤ)
    (hd : d ∈ dateGrid
      (effectiveStart (L.filter (fun tx => tx.date ≤ endD)) start) endD) :
    cumQty (L.filter (fun tx => tx.date ≤ endD)) t
      (effectiveStart (L.filter (fun tx => tx.date ≤ endD)) start) d =
      ((L.filter (fun tx => tx.ticker = t ∧ tx.type = .BUY ∧ tx.date ≤ d)).map
        (fun tx => tx.quantity.getD 0)).sum -
      ((L.filter (fun tx => tx.ticker = t ∧ tx.type = .SELL ∧ tx.date ≤ d)).map
        (fun tx => tx.quantity.getD 0)).sum := by
  set txs := L.filter (fun tx => tx.date ≤ endD) with htxs
  set s := effectiveStart txs start with hs
  rcases mem_dateGrid.mp hd with ⟨hsd, hde⟩
  rw [cumQty_as_ledger_ite]
  have hcongr : ∀ tx ∈ txs,
      (if tx.ticker = t ∧ tx.date ∈ dateGrid s d then signedQty tx else 0) =
        (if tx.ticker = t ∧ tx.date ≤ d then signedQty tx else 0) := by
    intro tx htx
    have hsle : s ≤ tx.date :=
      le_trans (min_le_left _ _) (firstTxDate_le txs tx htx)
    have : (tx.ticker = t ∧ tx.date ∈ dateGrid s d) ↔
        (tx.ticker = t ∧ tx.date ≤ d) := by
      rw [mem_dateGrid]
      constructor
      · rintro ⟨h1, _, h3⟩
        exact ⟨h1, h3⟩
      · rintro ⟨h1, h2⟩
        exact ⟨h1, hsle, h2⟩
    rw [if_congr this rfl rfl]
  rw [List.map_congr_left hcongr, sum_ite_drop_post_end L t d endD hde,
    sum_ite_split_buy_sell]

/-- Witness for C4: one BUY of 2 on day 1, requested window `[0, 2]`,
evaluated at grid day 1. -/
theorem cumQty_matches_ledger_witness :
    ((1 : ℤ) ∈ dateGrid
        (effectiveStart (([⟨"A", 1, .BUY, some 2, some 1, none⟩] :
          List Tx).filter (fun tx => tx.date ≤ 2)) 0) 2) ∧
    cumQty (([⟨"A", 1, .BUY, some 2, some 1, none⟩] :
        List Tx).filter (fun tx => tx.date ≤ 2)) "A"
      (effectiveStart (([⟨"A", 1, .BUY, some 2, some 1, none⟩] :
        List Tx).filter (fun tx => tx.date ≤ 2)) 0) 1 =
      ((([⟨"A", 1, .BUY, some 2, some 1, none⟩] : List Tx).filter
        (fun tx => tx.ticker = "A" ∧ tx.type = .BUY ∧ tx.date ≤ 1)).map
        (fun tx => tx.quantity.getD 0)).sum -
      ((([⟨"A", 1, .BUY, some 2, some 1, none⟩] : List Tx).filter
        (fun tx => tx.ticker = "A" ∧ tx.type = .SELL ∧ tx.date ≤ 1)).map
        (fun tx => tx.quantity.getD 0)).sum :=
  ⟨by decide,
    cumQty_matches_ledger [⟨"A", 1, .BUY, some 2, some 1, none⟩] "A" 0 2 1
      (by decide)⟩

/-! ### Max drawdown facts (C1) -/

theorem cummaxAux_zip_le (xs : List ℚ) :
    ∀ (a : ℚ), ∀ p ∈ xs.zip (cummaxAux a xs), p.1 ≤ p.2 ∧ a ≤ p.2 := by
  induction xs with
  | nil => intro a p hp; simp at hp
  | cons v vs ih =>
    intro a p hp
    rw [cummaxAux, List.zip_cons_cons] at hp
    rcases List.mem_cons.mp hp with rfl | htl
    · exact ⟨le_max_right a v, le_max_left a v⟩
    · rcases ih (max a v) p htl with ⟨h1, h2⟩
      exact ⟨h1, le_trans (le_max_left a v) h2⟩

theorem zip_cummax_le (vs : List ℚ) :
    ∀ p ∈ vs.zip (cummax vs), p.1 ≤ p.2 := by
  cases vs with
  | nil => intro p hp; simp at hp
  | cons v tl =>
    intro p hp
    rw [cummax, List.zip_cons_cons] at hp
    rcases List.mem_cons.mp hp with rfl | htl
    · exact le_refl v
    · exact (cummaxAux_zip_le tl v p htl).1

theorem zip_cummax_head_le (v : ℚ) (tl : List ℚ) :
    ∀ p ∈ (v :: tl).zip (cummax (v :: tl)), v ≤ p.2 := by
  intro p hp
  rw [cummax, List.zip_cons_cons] at hp
  rcases List.mem_cons.mp hp with rfl | htl
  · exact le_refl v
  · exact (cummaxAux_zip_le tl v p htl).2

theorem drawdowns_nonpos (vs : List ℚ) : ∀ x ∈ drawdowns vs, x ≤ 0 := by
  intro x hx
  rcases List.mem_map.mp hx with ⟨p, hp, rfl⟩
  by_cases h : 0 < p.2
  · rw [if_pos h]
    have h1 : p.1 / p.2 ≤ 1 := (div_le_one h).mpr (zip_cummax_le vs p hp)
    linarith
  · rw [if_neg h]

theorem foldl_min_le_initQ (ds : List ℚ) (d : ℚ) : ds.foldl min d ≤ d := by
  induction ds generalizing d with
  | nil => simp
  | cons x ds ih => exact le_trans (ih (min d x)) (min_le_left _ _)

theorem foldl_min_le_memQ (ds : List ℚ) (d x : ℚ) (hx : x ∈ ds) :
    ds.foldl min d ≤ x := by
  induction ds generalizing d with
  | nil => cases hx
  | cons y ds ih =>
    rcases List.mem_cons.mp hx with rfl | h2
    · exact le_trans (foldl_min_le_initQ ds _) (min_le_right _ _)
    · exact ih _ h2

theorem le_foldl_minQ (ds : List ℚ) (d c : ℚ) (hd : c ≤ d)
    (h : ∀ x ∈ ds, c ≤ x) : c ≤ ds.foldl min d := by
  induction ds generalizing d with
  | nil => exact hd
  | cons x ds ih =>
    exact ih (min d x) (le_min hd (h x (List.mem_cons_self x ds)))
      (fun y hy => h y (List.mem_cons_of_mem x hy))

theorem maxDrawdown_nonpos (vs : List ℚ) : maxDrawdown vs ≤ 0 := by
  unfold maxDrawdown
  cases hdd : drawdowns vs with
  | nil => exact le_refl 0
  | cons d ds =>
    have hd0 : d ≤ 0 := drawdowns_nonpos vs d (hdd ▸ List.mem_cons_self d ds)
    exact le_trans (foldl_min_le_initQ ds d) hd0

theorem cummaxAux_of_chain (xs : List ℚ) :
    ∀ a : ℚ, List.Chain' (· ≤ ·) (a :: xs) → cummaxAux a xs = xs := by
  induction xs with
  | nil => intro a _; rfl
  | cons v vs ih =>
    intro a h
    rcases List.chain'_cons.mp h with ⟨hav, htl⟩
    rw [cummaxAux, max_eq_right hav, ih v htl]

theorem mem_zip_self (l : List ℚ) : ∀ p ∈ l.zip l, p.1 = p.2 := by
  induction l with
  | nil => intro p hp; simp at hp
  | cons x xs ih =>
    intro p hp
    rw [List.zip_cons_cons] at hp
    rcases List.mem_cons.mp hp with rfl | h2
    · rfl
    · exact ih p h2

theorem maxDrawdown_of_chain (vs : List ℚ) (h : List.Chain' (· ≤ ·) vs) :
    maxDrawdown vs = 0 := by
  have hall : ∀ x ∈ drawdowns vs, x = 0 := by
    intro x hx
    rcases List.mem_map.mp hx with ⟨p, hp, rfl⟩
    have hzip : p.1 = p.2 := by
      cases vs with
      | nil => simp at hp
      | cons v tl =>
        rw [cummax, cummaxAux_of_chain tl v h] at hp
        exact mem_zip_self (v :: tl) p hp
    by_cases hpos : 0 < p.2
    · rw [if_pos hpos, hzip, div_self (ne_of_gt hpos)]
      ring
    · rw [if_neg hpos]
  unfold maxDrawdown
  cases hdd : drawdowns vs with
  | nil => rfl
  | cons d ds =>
    have hd0 : d = 0 := hall d (hdd ▸ List.mem_cons_self d ds)
    refine le_antisymm (le_of_le_of_eq (foldl_min_le_initQ ds d) hd0) ?_
    refine le_foldl_minQ ds d 0 (le_of_eq hd0.symm) (fun x hx => ?_)
    exact le_of_eq (hall x (hdd ▸ List.mem_cons_of_mem d hx)).symm

theorem chain_of_zip_cummaxAux (xs : List ℚ) :
    ∀ a : ℚ, (∀ p ∈ xs.zip (cummaxAux a xs), p.1 = p.2) →
      List.Chain' (· ≤ ·) (a :: xs) := by
  induction xs with
  | nil => intro a _; simp
  | cons v vs ih =>
    intro a h
    have hhead : v = max a v := by
      have := h (v, max a v) (by rw [cummaxAux, List.zip_cons_cons]; exact List.mem_cons_self _ _)
      exact this
    have hav : a ≤ v := le_of_le_of_eq (le_max_left a v) hhead.symm
    have htl : List.Chain' (· ≤ ·) (v :: vs) := by
      have h2 : ∀ p ∈ vs.zip (cummaxAux v vs), p.1 = p.2 := by
        intro p hp
        refine h p ?_
        rw [cummaxAux, List.zip_cons_cons, ← hhead]
        exact List.mem_cons_of_mem _ hp
      exact ih v h2
    exact List.chain'_cons.mpr ⟨hav, htl⟩

/-- C1 (amended): the portfolio max drawdown is never positive; it is 0
whenever the value series is non-decreasing from its first point; and
conversely, when the series starts at a positive value, a zero max
drawdown forces the series to be non-decreasing.  (When the series
starts non-positive the converse can fail: days whose running peak is
not positive report drawdown 0, so an early decline is invisible.) -/
theorem maxDrawdown_nonpos_and_zero_iff_monotone (vs : List ℚ) :
    maxDrawdown vs ≤ 0 ∧
    (List.Chain' (· ≤ ·) vs → maxDrawdown vs = 0) ∧
    (0 < vs.headI → maxDrawdown vs = 0 → List.Chain' (· ≤ ·) vs) := by
  refine ⟨maxDrawdown_nonpos vs, maxDrawdown_of_chain vs, ?_⟩
  intro hpos h0
  cases vs with
  | nil => simp
  | cons v tl =>
    have hvpos : 0 < v := hpos
    have hpeaks : ∀ p ∈ (v :: tl).zip (cummax (v :: tl)), 0 < p.2 :=
      fun p hp => lt_of_lt_of_le hvpos (zip_cummax_head_le v tl p hp)
    have hddzero : ∀ x ∈ drawdowns (v :: tl), x = 0 := by
      intro x hx
      have hle : x ≤ 0 := drawdowns_nonpos _ x hx
      have hge : 0 ≤ x := by
        unfold maxDrawdown at h0
        rcases hdd : drawdowns (v :: tl) with _ | ⟨d, ds⟩
        · rw [hdd] at hx; simp at hx
        · rw [hdd] at h0 hx
          rcases List.mem_cons.mp hx with rfl | h2
          · exact h0 ▸ foldl_min_le_initQ ds x
          · exact h0 ▸ foldl_min_le_memQ ds d x h2
      linarith
    have hzipeq : ∀ p ∈ (v :: tl).zip (cummax (v :: tl)), p.1 = p.2 := by
      intro p hp
      have hz : (if 0 < p.2 then p.1 / p.2 - 1 else 0) = 0 :=
        hddzero _ (List.mem_map_of_mem _ hp)
      rw [if_pos (hpeaks p hp)] at hz
      have hdiv : p.1 / p.2 = 1 := by linarith
      have hne : p.2 ≠ 0 := ne_of_gt (hpeaks p hp)
      field_simp at hdiv
      exact hdiv
    have := chain_of_zip_cummaxAux tl v (by
      intro p hp
      refine hzipeq p ?_
      rw [cummax, List.zip_cons_cons]
      exact List.mem_cons_of_mem _ hp)
    exact this


/-- C1 (counterexample): this request succeeds, its value series is
`[0, -1, 5, 5]` — strictly decreasing from day 0 to day 1 — yet the
returned max drawdown is exactly 0, because the early dip happens while
the running peak is not positive.  So "max drawdown = 0 iff the value
series is non-decreasing from its first point" fails on the code. -/
theorem maxDrawdown_zero_on_decreasing_series :
    portfolioValueSeries ctxShortDip 0 3 = .ok [0, -1, 5, 5] ∧
    (computePortfolioMetrics ctxShortDip 0 3 0 0 id (fun a _ => a)).1.map
      MetricsOut.maxDrawdown = .ok 0 ∧
    ¬ List.Chain' (· ≤ ·) ([0, -1, 5, 5] : List ℚ) := by
  refine ⟨by decide, by decide, fun h => ?_⟩
  have h01 : (0 : ℚ) ≤ -1 := (List.chain'_cons.mp h).1
  norm_num at h01

/-! ### Price-history failure propagation (C5) -/

theorem fetchMissing_aborts (ph : String → Except HErr (List (ℤ × ℚ)))
    (ts : List String) (t : String) (e : HErr) (ht : t ∈ ts)
    (hf : ph t = .error e) :
    ∃ t1 e1, t1 ∈ ts ∧ ph t1 = .error e1 ∧
      fetchMissing ph ts =
        .error ⟨400, "Missing price data for " ++ t1 ++ ": " ++ e1.detail⟩ := by
  induction ts with
  | nil => cases ht
  | cons u ts ih =>
    cases hu : ph u with
    | error e1 =>
      exact ⟨u, e1, List.mem_cons_self u ts, hu, by rw [fetchMissing, hu]⟩
    | ok data =>
      have ht2 : t ∈ ts := by
        rcases List.mem_cons.mp ht with rfl | h2
        · rw [hu] at hf; cases hf
        · exact h2
      rcases ih ht2 with ⟨t1, e1, hmem, hphe, hfm⟩
      exact ⟨t1, e1, List.mem_cons_of_mem u hmem, hphe, by rw [fetchMissing, hu, hfm]⟩

/-- C5 (amended): whenever the external provider fails for a ticker with
no stored history, the whole price-history assembly (and with it the
metrics computation, which propagates the exception) aborts with the
failure of some missing ticker, wrapped with that ticker and the
original detail — but surfaced with status 400, the client-error status
that validation failures also use, not a distinct 502/503. -/
theorem ensurePriceHistory_upstream_aborts (tickers : List String)
    (dbRows : String → List (ℤ × Option ℚ))
    (ph : String → Except HErr (List (ℤ × ℚ))) (t : String) (e : HErr)
    (ht : t ∈ missingTickers tickers dbRows) (hf : ph t = .error e) :
    ∃ t1 e1, t1 ∈ missingTickers tickers dbRows ∧ ph t1 = .error e1 ∧
      ensurePriceHistory tickers dbRows ph =
        .error ⟨400, "Missing price data for " ++ t1 ++ ": " ++ e1.detail⟩ := by
  rcases fetchMissing_aborts ph _ t e ht hf with ⟨t1, e1, hmem, hphe, hfm⟩
  exact ⟨t1, e1, hmem, hphe, by rw [ensurePriceHistory, hfm]⟩

/-- Witness for C5 (amended) at one missing ticker whose provider fetch
fails with a 502. -/
theorem ensurePriceHistory_upstream_aborts_witness :
    ("VOO" ∈ missingTickers ["VOO"] (fun _ => []) ∧
      (fun _ : String =>
        (Except.error ⟨502, "boom"⟩ : Except HErr (List (ℤ × ℚ)))) "VOO" =
        .error ⟨502, "boom"⟩) ∧
    (∃ t1 e1, t1 ∈ missingTickers ["VOO"] (fun _ => []) ∧
      (fun _ : String =>
        (Except.error ⟨502, "boom"⟩ : Except HErr (List (ℤ × ℚ)))) t1 =
        .error e1 ∧
      ensurePriceHistory ["VOO"] (fun _ => [])
        (fun _ => .error ⟨502, "boom"⟩) =
        .error ⟨400, "Missing price data for " ++ t1 ++ ": " ++ e1.detail⟩) :=
  ⟨⟨by decide, rfl⟩,
    ensurePriceHistory_upstream_aborts ["VOO"] (fun _ => [])
      (fun _ => .error ⟨502, "boom"⟩) "VOO" ⟨502, "boom"⟩ (by decide) rfl⟩

/-- C5 (counterexample): a provider failure (status 502) during the
fallback for a history-less ticker is re-surfaced by the metrics price
assembly with status 400 — the very status the engine uses for client
validation failures such as `start > end` — so it is not a distinct
service-unavailable/bad-gateway condition. -/
theorem upstream_failure_surfaced_as_client_400 :
    ensurePriceHistory ["VOO"] (fun _ => [])
        (fun _ => .error ⟨502, "Error downloading data: boom"⟩) =
      .error ⟨400, "Missing price data for VOO: Error downloading data: boom"⟩ ∧
    (computePortfolioMetrics ⟨[], [], fun _ => .error ⟨502, "boom"⟩⟩ 1 0 0 0
        id (fun a _ => a)).1 =
      .error ⟨400, "start must be before or equal to end"⟩ ∧
    (400 : ℕ) ≠ 502 ∧ (400 : ℕ) ≠ 503 := by
  refine ⟨by decide, by decide, by decide, by decide⟩

/-! ### Transaction validation facts (C7) -/

theorem validatePayload_error_iff (txType : TransactionType)
    (q p a : Option ℚ) (txDate today : ℤ) :
    (validatePayload txType q p a txDate today).isOk = false ↔
      rejectConditions txType q p a txDate today := by
  unfold validatePayload rejectConditions badQty badPriceOrAmount
  by_cases hd : today < txDate
  · simp [hd, Except.isOk, Except.toBool]
  · rw [if_neg hd]
    by_cases htype : txType = .BUY ∨ txType = .SELL
    · rw [if_pos htype, if_pos htype]
      cases q with
      | none => simp [hd, Except.isOk, Except.toBool]
      | some x =>
        by_cases hx : x ≤ 0
        · simp [hd, hx, Except.isOk, Except.toBool]
        · cases p with
          | none => simp [hd, hx, Except.isOk, Except.toBool]
          | some y =>
            by_cases hy : y < 0 <;> simp [hd, hx, hy, Except.isOk, Except.toBool]
    · rw [if_neg htype, if_neg htype]
      cases a with
      | none => simp [hd, Except.isOk, Except.toBool]
      | some z => by_cases hz : z < 0 <;> simp [hd, hz, Except.isOk, Except.toBool]

theorem toDecimal_fits (v : Option NumIn) (h : fitsContext v = true) :
    toDecimal v = .ok (v.map (fun n => quantizeHalfEven 8 (numVal n))) := by
  cases v with
  | none => rfl
  | some n =>
    cases n with
    | dec q =>
      simp only [fitsContext, numVal] at h
      have h2 : ¬ 10 ^ 28 ≤ |roundHalfEvenZ (q * 10 ^ 8)| :=
        not_le.mpr (of_decide_eq_true h)
      simp only [toDecimal]
      rw [if_neg h2]
      rfl
    | raw q =>
      simp only [fitsContext, numVal] at h
      have h2 : ¬ 10 ^ 28 ≤ |roundHalfEvenZ (q * 10 ^ 8)| :=
        not_le.mpr (of_decide_eq_true h)
      simp only [toDecimal]
      rw [if_neg h2]
      rfl

/-- C7 (amended): for a non-blank ticker and numeric fields within the
28-digit decimal context capacity, transaction creation rejects — always
with a validation error, never an escaping exception — exactly the
payloads whose 8-decimal-quantized (ties-to-even) fields satisfy the
claim's conditions (BUY/SELL with missing or non-positive quantity or
missing or negative price, DIVIDEND/FEE with missing or negative amount,
or a future date), and a successful creation appends exactly the one new
row to the store (so a rejection persists nothing).  A quantity beyond
the context capacity makes `quantize` raise `InvalidOperation` instead
of validating: surfaced as a validation rejection for a float/int/str
value, but escaping `create_transaction` uncaught for a `Decimal`
value. -/
theorem createTransaction_rejects_iff (store : List Tx) (ticker : String)
    (txType : TransactionType) (txDate : ℤ) (q p a : Option NumIn) (today : ℤ)
    (hticker : stripStr ticker ≠ "") (hq : fitsContext q = true)
    (hp : fitsContext p = true) (ha : fitsContext a = true) :
    ((createTransaction store ticker txType txDate q p a today).isOk = false ↔
      rejectConditions txType (q.map (fun n => quantizeHalfEven 8 (numVal n)))
        (p.map (fun n => quantizeHalfEven 8 (numVal n)))
        (a.map (fun n => quantizeHalfEven 8 (numVal n))) txDate today) ∧
    (∀ f, createTransaction store ticker txType txDate q p a today = .error f →
      f ≠ .uncaught) ∧
    (∀ st tx, createTransaction store ticker txType txDate q p a today =
        .ok (st, tx) → st = store ++ [tx]) ∧
    (∀ q0 : ℚ, 10 ^ 28 ≤ |roundHalfEvenZ (q0 * 10 ^ 8)| →
      createTransaction store ticker txType txDate (some (.dec q0)) p a today =
        .error .uncaught ∧
      createTransaction store ticker txType txDate (some (.raw q0)) p a today =
        .error (.invalid "Invalid decimal value")) := by
  have hnorm : normalizeTicker ticker = .ok (upperStr (stripStr ticker)) := by
    unfold normalizeTicker
    rw [if_neg hticker]
  have hQ := toDecimal_fits q hq
  have hP := toDecimal_fits p hp
  have hA := toDecimal_fits a ha
  refine ⟨?_, ?_, ?_, ?_⟩
  · rw [← validatePayload_error_iff txType
      (q.map (fun n => quantizeHalfEven 8 (numVal n)))
      (p.map (fun n => quantizeHalfEven 8 (numVal n)))
      (a.map (fun n => quantizeHalfEven 8 (numVal n))) txDate today]
    cases hv : validatePayload txType
        (q.map (fun n => quantizeHalfEven 8 (numVal n)))
        (p.map (fun n => quantizeHalfEven 8 (numVal n)))
        (a.map (fun n => quantizeHalfEven 8 (numVal n))) txDate today with
    | error e =>
      simp [createTransaction, hnorm, hQ, hP, hA, hv, Except.isOk, Except.toBool]
    | ok u =>
      simp [createTransaction, hnorm, hQ, hP, hA, hv, Except.isOk, Except.toBool]
  · intro f hf
    unfold createTransaction at hf
    rw [hnorm, hQ, hP, hA] at hf
    cases hv : validatePayload txType
        (q.map (fun n => quantizeHalfEven 8 (numVal n)))
        (p.map (fun n => quantizeHalfEven 8 (numVal n)))
        (a.map (fun n => quantizeHalfEven 8 (numVal n))) txDate today with
    | error e =>
      simp only [hv, Except.error.injEq] at hf
      rw [← hf]
      simp
    | ok u => simp [hv] at hf
  · intro st tx hok
    unfold createTransaction at hok
    rw [hnorm, hQ, hP, hA] at hok
    cases hv : validatePayload txType
        (q.map (fun n => quantizeHalfEven 8 (numVal n)))
        (p.map (fun n => quantizeHalfEven 8 (numVal n)))
        (a.map (fun n => quantizeHalfEven 8 (numVal n))) txDate today with
    | error e => simp [hv] at hok
    | ok u =>
      simp only [hv, Except.ok.injEq, Prod.mk.injEq] at hok
      rcases hok with ⟨h1, h2⟩
      rw [← h1, ← h2]
  · intro q0 hq0
    constructor
    · have hd : toDecimal (some (.dec q0)) = .error .uncaught := by
        simp only [toDecimal]
        rw [if_pos hq0]
      simp [createTransaction, hnorm, hd]
    · have hr : toDecimal (some (.raw q0)) =
          .error (.invalid "Invalid decimal value") := by
        simp only [toDecimal]
        rw [if_pos hq0]
      simp [createTransaction, hnorm, hr]

/-- Witness for C7 (amended) at a SELL with a negative price, fields
passed as float/int values within the context capacity. -/
theorem createTransaction_rejects_iff_witness :
    (stripStr "msft" ≠ "" ∧ fitsContext (some (.raw 1)) = true ∧
      fitsContext (some (.raw (-2))) = true ∧
      fitsContext (none : Option NumIn) = true) ∧
    (((createTransaction [] "msft" .SELL 0 (some (.raw 1)) (some (.raw (-2)))
        none 0).isOk = false ↔
      rejectConditions .SELL
        ((some (.raw 1) : Option NumIn).map (fun n => quantizeHalfEven 8 (numVal n)))
        ((some (.raw (-2)) : Option NumIn).map (fun n => quantizeHalfEven 8 (numVal n)))
        ((none : Option NumIn).map (fun n => quantizeHalfEven 8 (numVal n))) 0 0) ∧
    (∀ f, createTransaction [] "msft" .SELL 0 (some (.raw 1)) (some (.raw (-2)))
        none 0 = .error f → f ≠ .uncaught) ∧
    (∀ st tx, createTransaction [] "msft" .SELL 0 (some (.raw 1))
        (some (.raw (-2))) none 0 = .ok (st, tx) → st = [] ++ [tx]) ∧
    (∀ q0 : ℚ, 10 ^ 28 ≤ |roundHalfEvenZ (q0 * 10 ^ 8)| →
      createTransaction [] "msft" .SELL 0 (some (.dec q0)) (some (.raw (-2)))
        none 0 = .error .uncaught ∧
      createTransaction [] "msft" .SELL 0 (some (.raw q0)) (some (.raw (-2)))
        none 0 = .error (.invalid "Invalid decimal value"))) :=
  ⟨⟨by decide, by decide, by decide, rfl⟩,
    createTransaction_rejects_iff [] "msft" .SELL 0 (some (.raw 1))
      (some (.raw (-2))) none 0 (by decide) (by decide) (by decide) rfl⟩

/-- C7 (counterexample): a BUY with the strictly positive quantity
`10^-9` and price 1 is rejected — `_to_decimal` quantizes the quantity
to 8 decimal places (ties to even) before `_validate_payload` runs,
turning it into 0 — which contradicts "payloads satisfying these
conditions are not rejected by this validation". -/
theorem positive_tiny_quantity_rejected :
    createTransaction [] "A" .BUY 0 (some (.raw (1 / 10 ^ 9))) (some (.raw 1))
        none 0 =
      .error (.invalid "Quantity must be > 0 for BUY/SELL") ∧
    (0 : ℚ) < 1 / 10 ^ 9 := by
  constructor
  · decide
  · norm_num

/-! ### Null-policy divergence in advanced_metrics (C2) -/

set_option maxRecDepth 4000 in
/-- C2: on closes `[1, 1, 1]` with `mar = 0` no return falls below the
daily MAR, so the downside set is empty and the downside deviation is 0
(`downside_volatility` is reported as `0`, not `None`) — yet
`advanced_metrics` returns `sortino = some ((ann_return - mar) / 1e-12)`
(here `some 0`), not `None`.  This contradicts the claim's "Sortino is
None whenever the downside deviation is 0", and also the repository's
own test `test_advanced_metrics_downside_empty`, which asserts
`result["sortino"] is None` and `result["downside_volatility"] is None`
in exactly this empty-downside situation — so the code diverges from its
own test suite.  (The portfolio-level engine and `basic_metrics` do
implement the claimed null policy; `statsOf` returns `none` for Sortino
whenever `downsideStd` is 0.) -/
theorem advanced_sortino_not_none_on_empty_downside :
    (advancedMetrics id (fun a _ => a) [1, 1, 1] 0 0).map AdvOut.sortino =
      .ok (some 0) ∧
    (advancedMetrics id (fun a _ => a) [1, 1, 1] 0 0).map
      AdvOut.downsideVolatility = .ok 0 ∧
    (pctChangeReturns [1, 1, 1]).filter (· < 0) = [] := by
  refine ⟨by decide, by decide, by decide⟩

/-! ### Ticker normalization facts (C10) -/

theorem char_toNat_ofNatAux (n : ℕ) (h : n.isValidChar) :
    (Char.ofNatAux n h).toNat = n := by
  simp [Char.ofNatAux, Char.toNat, UInt32.toNat]

theorem char_toUpper_toUpper (c : Char) : c.toUpper.toUpper = c.toUpper := by
  have hid : ∀ d : Char, ¬(d.toNat ≥ 97 ∧ d.toNat ≤ 122) → d.toUpper = d := by
    intro d hd
    simp [Char.toUpper, hd]
  by_cases h : c.toNat ≥ 97 ∧ c.toNat ≤ 122
  · have hv : (c.toNat - 32).isValidChar := Or.inl (by omega)
    have h1 : c.toUpper = Char.ofNatAux (c.toNat - 32) hv := by
      simp [Char.toUpper, h, Char.ofNat, hv]
    have h2 : c.toUpper.toNat = c.toNat - 32 := by
      rw [h1]
      exact char_toNat_ofNatAux _ hv
    refine hid c.toUpper ?_
    rw [h2]
    omega
  · rw [hid c h]
    exact hid c h

theorem upperStr_idem (s : String) : upperStr (upperStr s) = upperStr s := by
  unfold upperStr
  simp [List.map_map, Function.comp_def, char_toUpper_toUpper]

theorem upperStr_eq_empty_iff (s : String) : upperStr s = "" ↔ s = "" := by
  rw [String.ext_iff, String.ext_iff]
  unfold upperStr
  simp

theorem mem_upsertOne (s : List PriceEntry) (e x : PriceEntry)
    (hx : x ∈ upsertOne s e) : x ∈ s ∨ x = e := by
  unfold upsertOne at hx
  split at hx
  · rcases List.mem_map.mp hx with ⟨r, hr, rfl⟩
    by_cases hc : r.ticker = e.ticker ∧ r.date = e.date
    · rw [if_pos hc]
      exact Or.inr rfl
    · rw [if_neg hc]
      exact Or.inl hr
  · rcases List.mem_append.mp hx with h | h
    · exact Or.inl h
    · rcases List.mem_singleton.mp h with rfl
      exact Or.inr rfl

theorem mem_upsertPrices (pstore : List PriceEntry) (t : String)
    (rows : List RawBar) :
    ∀ x ∈ upsertPrices pstore t rows, x ∈ pstore ∨ x.ticker = upperStr t := by
  unfold upsertPrices
  induction rows generalizing pstore with
  | nil => intro x hx; exact Or.inl hx
  | cons b rows ih =>
    intro x hx
    rw [List.foldl_cons] at hx
    rcases ih (upsertOne pstore (payloadRow (upperStr t) b)) x hx with h | h
    · rcases mem_upsertOne _ _ _ h with h2 | rfl
      · exact Or.inl h2
      · exact Or.inr rfl
    · exact Or.inr h

/-- C10: stored transaction tickers are the stripped and uppercased
input (hence fixed points of uppercasing); rows stored by the price
upsert carry the uppercased ticker; and every price-store write and read
operation behaves identically for ticker strings with the same
uppercasing (i.e. regardless of letter case). -/
theorem ticker_normalization_case_insensitive
    (store : List Tx) (pstore : List PriceEntry) (ticker : String)
    (txType : TransactionType) (txDate : ℤ) (q p a : Option NumIn) (today : ℤ)
    (rows : List RawBar) (t1 t2 : String) (s : ℤ) (e : Option ℤ)
    (limit offset : ℕ) (hcase : upperStr t1 = upperStr t2) :
    (∀ st tx, createTransaction store ticker txType txDate q p a today =
        .ok (st, tx) →
      tx.ticker = upperStr (stripStr ticker) ∧ upperStr tx.ticker = tx.ticker) ∧
    (∀ x ∈ upsertPrices pstore t1 rows, x ∈ pstore ∨ x.ticker = upperStr t1) ∧
    upsertPrices pstore t1 rows = upsertPrices pstore t2 rows ∧
    readPricesRange pstore t1 s e = readPricesRange pstore t2 s e ∧
    countPricesRange pstore t1 s e = countPricesRange pstore t2 s e ∧
    readPricesRangePaged pstore t1 s e limit offset =
      readPricesRangePaged pstore t2 s e limit offset ∧
    getLastDate pstore t1 = getLastDate pstore t2 ∧
    getLastPrice pstore t1 = getLastPrice pstore t2 ∧
    getLatestPricesFor pstore [t1] = getLatestPricesFor pstore [t2] := by
  refine ⟨?_, mem_upsertPrices pstore t1 rows, ?_, ?_, ?_, ?_, ?_, ?_, ?_⟩
  · intro st tx hok
    unfold createTransaction at hok
    by_cases hb : stripStr ticker = ""
    · simp [normalizeTicker, hb] at hok
    · have hnorm : normalizeTicker ticker = .ok (upperStr (stripStr ticker)) := by
        unfold normalizeTicker
        rw [if_neg hb]
      rw [hnorm] at hok
      cases hq1 : toDecimal q with
      | error f => simp [hq1] at hok
      | ok q1 =>
        cases hp1 : toDecimal p with
        | error f => simp [hq1, hp1] at hok
        | ok p1 =>
          cases ha1 : toDecimal a with
          | error f => simp [hq1, hp1, ha1] at hok
          | ok a1 =>
            cases hv : validatePayload txType q1 p1 a1 txDate today with
            | error e1 => simp [hq1, hp1, ha1, hv] at hok
            | ok u =>
              simp only [hq1, hp1, ha1, hv, Except.ok.injEq,
                Prod.mk.injEq] at hok
              rcases hok with ⟨-, h2⟩
              rw [← h2]
              exact ⟨rfl, upperStr_idem (stripStr ticker)⟩
  · unfold upsertPrices
    rw [hcase]
  · unfold readPricesRange
    rw [hcase]
  · unfold countPricesRange
    rw [hcase]
  · unfold readPricesRangePaged readPricesRange
    rw [hcase]
  · unfold getLastDate
    rw [hcase]
  · unfold getLastPrice
    rw [hcase]
  · unfold getLatestPricesFor
    have e1 : (t1 = "") ↔ (t2 = "") := by
      rw [← upperStr_eq_empty_iff t1, ← upperStr_eq_empty_iff t2, hcase]
    by_cases h1 : t1 = ""
    · rw [h1, e1.mp h1]
    · have h2 : t2 ≠ "" := fun hh => h1 (e1.mpr hh)
      simp only [List.filter_cons, List.filter_nil, h1, h2]
      simp [h1, h2, hcase]

/-- Witness for C10 at the case variants `"aapl"` and `"AAPL"` of the
same ticker. -/
theorem ticker_normalization_case_insensitive_witness :
    (upperStr "aapl" = upperStr "AAPL") ∧
    ((∀ st tx, createTransaction [] " voo " .BUY 0 (some (.dec 1))
        (some (.dec 1)) none 0 = .ok (st, tx) →
      tx.ticker = upperStr (stripStr " voo ") ∧
      upperStr tx.ticker = tx.ticker) ∧
    (∀ x ∈ upsertPrices [] "aapl" [⟨0, none, none, none, some 1, none⟩],
      x ∈ ([] : List PriceEntry) ∨ x.ticker = upperStr "aapl") ∧
    upsertPrices [] "aapl" [⟨0, none, none, none, some 1, none⟩] =
      upsertPrices [] "AAPL" [⟨0, none, none, none, some 1, none⟩] ∧
    readPricesRange [] "aapl" 0 none = readPricesRange [] "AAPL" 0 none ∧
    countPricesRange [] "aapl" 0 none = countPricesRange [] "AAPL" 0 none ∧
    readPricesRangePaged [] "aapl" 0 none 200 0 =
      readPricesRangePaged [] "AAPL" 0 none 200 0 ∧
    getLastDate [] "aapl" = getLastDate [] "AAPL" ∧
    getLastPrice [] "aapl" = getLastPrice [] "AAPL" ∧
    getLatestPricesFor [] ["aapl"] = getLatestPricesFor [] ["AAPL"]) :=
  ⟨by decide,
    ticker_normalization_case_insensitive [] [] " voo " .BUY 0 (some (.dec 1))
      (some (.dec 1)) none 0 [⟨0, none, none, none, some 1, none⟩] "aapl" "AAPL"
      0 none 200 0 (by decide)⟩

end ConcreteEvaluation

end Quantfolio
